import Mathlib

/-!
Shallow embedding of the 7-way trailer tester firmware core
(`src/firmware/diagnostics.py`, `src/firmware/relay_manager.py`,
`src/firmware/code.py`, `src/firmware/test_modes.py`) and proofs about it.

Modelling conventions:
* Python floats are modelled as `ℚ` (every literal involved — 3.0, 9.0,
  11.0, 0.1, 0.9, 0.5, 1.0, step durations — is exactly representable,
  and the quotients that arise have denominators far too small for double
  rounding to disturb any comparison performed by the code).
* Python ints are `ℕ` or `ℤ` as appropriate.
* Logging calls are pure no-ops and are omitted, except where evaluating
  the *arguments* of the call itself raises (see `mode_name`).
* Display / NeoPixel calls never touch relay or diagnostic state and are
  omitted from the relay-state model.
* Fallible Python code is embedded in `Except PyErr`.
-/

/-- Exceptions raised by the embedded Python fragments. -/
inductive PyErr where
  | typeError
  | attributeError
  | valueError
deriving DecidableEq

/-- The six logical trailer circuits (keys of `TrailerTester.CHANNELS` in
`code.py` and of the readings dicts passed to the diagnostics engine). -/
inductive Channel where
  | brake
  | tail
  | left
  | right
  | aux
  | reverse
deriving DecidableEq

/-- The fault kinds produced by `DiagnosticsEngine` (`diagnostics.py`):
the `name` field of the `FaultPattern` objects it constructs. -/
inductive FaultName where
  | OPEN_CIRCUIT
  | VOLTAGE_DROP
  | WEAK_SIGNAL
  | POSSIBLE_CROSS_WIRE
  | GROUND_FAULT
deriving DecidableEq

/-- `FaultPattern` (diagnostics.py:16-32). The `description` and `fixes`
fields are fixed literal text with the channel profile interpolated; they
carry no decision logic, so the model keeps the `name` and `confidence`
fields and records the channel interpolated into the description (if any)
as `channel`. -/
structure FaultPattern where
  name : FaultName
  channel : Option Channel
  confidence : ℕ
deriving DecidableEq

/-- A voltage snapshot: the `readings` dict (`channel_name -> voltage`),
as an association list in dict insertion order.  Python dict keys are
unique; theorems that need this carry a `Nodup` hypothesis. -/
abbrev Snapshot := List (Channel × ℚ)

/-- `readings.get(key, default)` on a snapshot. -/
def readings_get : Snapshot → Channel → ℚ → ℚ
  | [], _, dflt => dflt
  | (c, v) :: rest, key, dflt => if c = key then v else readings_get rest key dflt

namespace DiagnosticsEngine

/-- `DiagnosticsEngine.EXPECTED_VOLTAGE` (diagnostics.py:44). -/
def EXPECTED_VOLTAGE : ℚ := 12

/-- `DiagnosticsEngine.NORMAL_MIN` (diagnostics.py:45). -/
def NORMAL_MIN : ℚ := 11

/-- `DiagnosticsEngine.WEAK_THRESHOLD` (diagnostics.py:46). -/
def WEAK_THRESHOLD : ℚ := 9

/-- `DiagnosticsEngine.ACTIVE_THRESHOLD` (diagnostics.py:47). -/
def ACTIVE_THRESHOLD : ℚ := 3

/-- `DiagnosticsEngine._is_voltage_drop` (diagnostics.py:101-103):
`self.ACTIVE_THRESHOLD < voltage < self.WEAK_THRESHOLD`. -/
def is_voltage_drop (voltage : ℚ) : Bool :=
  decide (ACTIVE_THRESHOLD < voltage ∧ voltage < WEAK_THRESHOLD)

/-- `DiagnosticsEngine._is_weak_signal` (diagnostics.py:105-107):
`self.WEAK_THRESHOLD <= voltage < self.NORMAL_MIN`. -/
def is_weak_signal (voltage : ℚ) : Bool :=
  decide (WEAK_THRESHOLD ≤ voltage ∧ voltage < NORMAL_MIN)

/-- `DiagnosticsEngine._is_open_circuit` (diagnostics.py:96-99):
`voltage < 0.5` (never called from `analyze_readings`). -/
def is_open_circuit (voltage : ℚ) : Bool :=
  decide (voltage < 1/2)

/-- `DiagnosticsEngine._diagnose_voltage_drop` (diagnostics.py:133-153). -/
def diagnose_voltage_drop (channel : Channel) (voltage : ℚ) : FaultPattern :=
  { name := FaultName.VOLTAGE_DROP, channel := some channel, confidence := 85 }

/-- `DiagnosticsEngine._diagnose_weak_signal` (diagnostics.py:155-174). -/
def diagnose_weak_signal (channel : Channel) (voltage : ℚ) : FaultPattern :=
  { name := FaultName.WEAK_SIGNAL, channel := some channel, confidence := 70 }

/-- The per-channel body of the loop in `analyze_readings`
(diagnostics.py:70-79): only channels above `ACTIVE_THRESHOLD` are
checked; voltage drop first, weak signal in the `elif`. -/
def per_channel_check (channel : Channel) (voltage : ℚ) : Option FaultPattern :=
  if ACTIVE_THRESHOLD < voltage then
    if is_voltage_drop voltage then some (diagnose_voltage_drop channel voltage)
    else if is_weak_signal voltage then some (diagnose_weak_signal channel voltage)
    else none
  else none

/-- `DiagnosticsEngine._detect_cross_wiring` (diagnostics.py:176-198). -/
def detect_cross_wiring (readings : Snapshot) : Option FaultPattern :=
  let left_voltage := readings_get readings Channel.left 0
  let right_voltage := readings_get readings Channel.right 0
  if ACTIVE_THRESHOLD < left_voltage ∧ ACTIVE_THRESHOLD < right_voltage then
    if |left_voltage - right_voltage| < 1 then
      some { name := FaultName.POSSIBLE_CROSS_WIRE, channel := none, confidence := 60 }
    else none
  else none

/-- `DiagnosticsEngine._detect_ground_fault` (diagnostics.py:200-225). -/
def detect_ground_fault (readings : Snapshot) : Option FaultPattern :=
  let active_channels := (readings.map Prod.snd).filter (fun v => decide (ACTIVE_THRESHOLD < v))
  if 3 ≤ active_channels.length then
    let avg_voltage := active_channels.sum / (active_channels.length : ℚ)
    if avg_voltage < NORMAL_MIN then
      some { name := FaultName.GROUND_FAULT, channel := none, confidence := 90 }
    else none
  else none

/-- The `faults` list built by `analyze_readings` (diagnostics.py:65-89)
in encounter order, before the final sort: the per-channel loop over the
dict items, then the cross-wiring check, then the ground-fault check. -/
def detect_faults (readings : Snapshot) : List FaultPattern :=
  (readings.filterMap (fun p => per_channel_check p.1 p.2))
    ++ (detect_cross_wiring readings).toList
    ++ (detect_ground_fault readings).toList

/-- Stable insertion of a fault in front of the first element whose
confidence is `≤` its own.  Used to model the stable descending sort. -/
def insert_by_confidence (f : FaultPattern) : List FaultPattern → List FaultPattern
  | [] => [f]
  | g :: rest =>
    if g.confidence ≤ f.confidence then f :: g :: rest
    else g :: insert_by_confidence f rest

/-- `faults.sort(key=lambda f: f.confidence, reverse=True)`
(diagnostics.py:92).  Python `list.sort` is a stable sort, and a stable
sort by a given key is extensionally unique, so this stable insertion
sort (descending by confidence, ties keeping encounter order) computes
exactly the list Python produces. -/
def sort_by_confidence : List FaultPattern → List FaultPattern
  | [] => []
  | f :: rest => insert_by_confidence f (sort_by_confidence rest)

/-- `DiagnosticsEngine.analyze_readings` (diagnostics.py:54-94).  The
`mode` argument is the optional context parameter of the source; it is
unused there and here. -/
def analyze_readings (readings : Snapshot) (mode : Option ℕ) : List FaultPattern :=
  sort_by_confidence (detect_faults readings)

end DiagnosticsEngine

/-- One element of `DiagnosticHistory.history` (diagnostics.py:299-303):
the dict `{timestamp, readings (copied), faults (copied)}`. -/
structure HistEntry where
  timestamp : ℚ
  readings : Snapshot
  faults : List FaultPattern
deriving DecidableEq

/-- `DiagnosticHistory` (diagnostics.py:272-366).  `fault_counts` is the
dict of cumulative per-name fault counts, modelled as a total function
with default 0 (matching `self.fault_counts.get(fault_name, 0)`). -/
structure DiagnosticHistory where
  history : List HistEntry
  max_history : ℕ
  fault_counts : FaultName → ℕ

/-- `DiagnosticHistory.__init__` (diagnostics.py:279-288); the source
default for `max_history` is 100. -/
def history_init (max_history : ℕ) : DiagnosticHistory :=
  { history := [], max_history := max_history, fault_counts := fun _ => 0 }

/-- The loop `for fault in faults: self.fault_counts[fault.name] += 1`
(diagnostics.py:306-309). -/
def count_faults (counts : FaultName → ℕ) : List FaultPattern → FaultName → ℕ
  | [], n => counts n
  | f :: rest, n =>
    count_faults (fun m => if m = f.name then counts m + 1 else counts m) rest n

/-- `DiagnosticHistory.add_reading` (diagnostics.py:290-313): append the
entry, bump the per-name counts, then `pop(0)` once if the length now
exceeds `max_history`. -/
def add_reading (h : DiagnosticHistory) (timestamp : ℚ) (readings : Snapshot)
    (faults : List FaultPattern) : DiagnosticHistory :=
  let hist := h.history ++ [{ timestamp := timestamp, readings := readings, faults := faults }]
  let counts := count_faults h.fault_counts faults
  { history := if h.max_history < hist.length then hist.tail else hist,
    max_history := h.max_history,
    fault_counts := counts }

/-- A whole run of `add_reading` calls, oldest first. -/
def run_add_readings (h : DiagnosticHistory) : List HistEntry → DiagnosticHistory
  | [] => h
  | e :: rest => run_add_readings (add_reading h e.timestamp e.readings e.faults) rest

/-- `DiagnosticHistory.detect_intermittent_fault` (diagnostics.py:315-333).
The `threshold` parameter (source default 0.3) is accepted and, exactly as
in the source, never read: the bounds 0.1 and 0.9 are hard-coded.
`occurrences` is the cumulative `fault_counts` value, not a count over the
currently stored entries. -/
def detect_intermittent_fault (h : DiagnosticHistory) (fault_name : FaultName)
    (threshold : ℚ) : Bool :=
  if h.history.length < 10 then false
  else
    let occurrences := h.fault_counts fault_name
    let percentage : ℚ := (occurrences : ℚ) / (h.history.length : ℚ)
    decide (1/10 < percentage ∧ percentage < 9/10)

/-- Number of stored entries whose `faults` list contains a finding of
the given kind. -/
def entries_containing (h : DiagnosticHistory) (kind : FaultName) : ℕ :=
  (h.history.filter (fun e => e.faults.any (fun f => f.name == kind))).length

/-- Modelled from the spec (spec.md section 4.4), for comparison with the
source behaviour: "returns false until at least 10 entries exist;
otherwise computes occurrence fraction = (count of entries containing a
finding of `kind`) / (total entries) and returns true iff that fraction
lies strictly between 0.1 and 0.9". -/
def is_intermittent_per_spec (h : DiagnosticHistory) (kind : FaultName) : Bool :=
  if h.history.length < 10 then false
  else
    let fraction : ℚ := (entries_containing h kind : ℚ) / (h.history.length : ℚ)
    decide (1/10 < fraction ∧ fraction < 9/10)

/-- Total number of findings of a given kind across a list of
`add_reading` calls (each finding counted separately, eviction never
subtracts). -/
def total_occurrences (kind : FaultName) (adds : List HistEntry) : ℕ :=
  ((adds.map HistEntry.faults).flatten.filter (fun f => f.name = kind)).length

/-- `RelayManager` (relay_manager.py:19-188): `relays` holds the GPIO
output value of each relay pin (`relay_io.value`), `states` the tracked
copy (`self.states`). -/
structure RelayManager where
  relays : List Bool
  states : List Bool
deriving DecidableEq

/-- `RelayManager.__init__` (relay_manager.py:52-70): six pins, all
driven low, `states = [False] * 6`. -/
def relay_manager_init : RelayManager :=
  { relays := List.replicate 6 false, states := List.replicate 6 false }

namespace RelayManager

/-- `RelayManager.set_channel` (relay_manager.py:72-89).  The guard
`if not 0 <= channel_idx < len(self.relays)` logs an error and returns
without touching anything; the `Bool` in the result is `false` exactly on
that logged-error path and `true` on the normal path (the Python function
itself returns `None` either way). -/
def set_channel (m : RelayManager) (channel_idx : ℤ) (state : Bool) :
    RelayManager × Bool :=
  if ¬(0 ≤ channel_idx ∧ channel_idx < (m.relays.length : ℤ)) then (m, false)
  else
    ({ relays := m.relays.set channel_idx.toNat state,
       states := m.states.set channel_idx.toNat state }, true)

/-- `RelayManager.get_channel` (relay_manager.py:91-103). -/
def get_channel (m : RelayManager) (channel_idx : ℤ) : Bool :=
  if ¬(0 ≤ channel_idx ∧ channel_idx < (m.relays.length : ℤ)) then false
  else m.states.getD channel_idx.toNat false

/-- `RelayManager.all_off` (relay_manager.py:122-127): drive every pin
low and clear every tracked state. -/
def all_off (m : RelayManager) : RelayManager :=
  { relays := m.relays.map (fun _ => false), states := m.states.map (fun _ => false) }

end RelayManager

/-- Static per-channel profile from `TrailerTester.CHANNELS`
(code.py:41-48). -/
structure ChannelInfo where
  pin : ℕ
  color : String
  relay_idx : ℤ
  adc_board : ℕ
  adc_chan : ℕ

/-- `TrailerTester.CHANNELS` (code.py:41-48). -/
def CHANNELS : Channel → ChannelInfo
  | Channel.brake => { pin := 2, color := "blue", relay_idx := 0, adc_board := 0, adc_chan := 0 }
  | Channel.tail => { pin := 3, color := "green", relay_idx := 1, adc_board := 0, adc_chan := 1 }
  | Channel.left => { pin := 4, color := "red", relay_idx := 2, adc_board := 0, adc_chan := 2 }
  | Channel.right => { pin := 5, color := "brown", relay_idx := 3, adc_board := 0, adc_chan := 3 }
  | Channel.aux => { pin := 6, color := "black", relay_idx := 4, adc_board := 1, adc_chan := 0 }
  | Channel.reverse => { pin := 7, color := "yellow", relay_idx := 5, adc_board := 1, adc_chan := 1 }

/-- The literal `test_sequence` of `_run_trailer_test_sequence`
(code.py:194-201): `(channel, display_name, duration)`. -/
def test_sequence : List (Channel × String × ℚ) :=
  [(Channel.tail, "Tail Lights", 2),
   (Channel.left, "Left Turn", 3/2),
   (Channel.right, "Right Turn", 3/2),
   (Channel.brake, "Brakes", 2),
   (Channel.reverse, "Reverse", 3/2),
   (Channel.aux, "Aux Power", 1)]

/-- The primitive relay-affecting operations of a test-sequence body. -/
inductive SeqOp where
  | set (channel_idx : ℤ) (state : Bool)
  | sleep (seconds : ℚ)

/-- The relay-affecting operation trace of `_run_trailer_test_sequence`
(code.py:203-215): per step, energize the relay of the step, sleep for the
step duration, de-energize it, sleep the 0.3 s gap.  (The display and
NeoPixel calls interleaved in the source never touch relay state.) -/
def trailer_seq_ops : List SeqOp :=
  test_sequence.flatMap (fun step =>
    [SeqOp.set (CHANNELS step.1).relay_idx true,
     SeqOp.sleep step.2.2,
     SeqOp.set (CHANNELS step.1).relay_idx false,
     SeqOp.sleep (3/10)])

/-- Execute a list of sequence operations on the relay manager.  An
exception (actuation failure, cancellation, `KeyboardInterrupt` during a
`time.sleep`) aborting the sequence after `n` operations leaves the state
`run_ops relay_manager_init (trailer_seq_ops.take n)`: the source has no
`try/finally` around the loop, so nothing further runs in the sequencer. -/
def run_ops (m : RelayManager) : List SeqOp → RelayManager
  | [] => m
  | SeqOp.set idx st :: rest => run_ops (m.set_channel idx st).1 rest
  | SeqOp.sleep _ :: rest => run_ops m rest

namespace TestMode

/-- `TestMode.VEHICLE_TESTER` (test_modes.py:22): the plain int 0. -/
def VEHICLE_TESTER : ℕ := 0

/-- `TestMode.TRAILER_TESTER` (test_modes.py:23): the plain int 1. -/
def TRAILER_TESTER : ℕ := 1

/-- `TestMode.PASS_THROUGH` (test_modes.py:24): the plain int 2. -/
def PASS_THROUGH : ℕ := 2

/-- `TestMode.all_modes()` (test_modes.py:36-39). -/
def all_modes : List ℕ := [VEHICLE_TESTER, TRAILER_TESTER, PASS_THROUGH]

end TestMode

/-- The expression `list(TestMode)` in `_cycle_mode` (code.py:144).
`TestMode` (test_modes.py:16-39) is a plain class holding int constants —
not an `enum.Enum` and not otherwise iterable — so in Python
`list(TestMode)` raises `TypeError` (a type object is not iterable).
(The class provides `TestMode.all_modes()` for this purpose, which
`_cycle_mode` does not call.) -/
def list_TestMode : Except PyErr (List ℕ) :=
  Except.error PyErr.typeError

/-- The attribute access `mode.name` on a current-mode value
(code.py:149 inside `_cycle_mode`, code.py:158 inside `_trigger_test`).
Because `TestMode` members are plain ints, `self.current_mode` is an int,
and `int` has no attribute `name`, so the access raises
`AttributeError`.  (`TestMode.name(mode)`, the classmethod the rest of
the code base uses, is a different, working call.) -/
def mode_name (mode : ℕ) : Except PyErr String :=
  Except.error PyErr.attributeError

/-- `modes.index(value)`: the index of the first occurrence, raising
`ValueError` when the value is absent. -/
def py_index (modes : List ℕ) (value : ℕ) : Except PyErr ℕ :=
  match modes.indexOf? value with
  | some i => pure i
  | none => Except.error PyErr.valueError

/-- The pieces of application state read or written by `_cycle_mode`. -/
structure App where
  current_mode : ℕ
  relays : RelayManager

/-- `TrailerTester._cycle_mode` (code.py:142-154), line by line:
`modes = list(TestMode)`; `current_idx = modes.index(self.current_mode)`;
`next_idx = (current_idx + 1) % len(modes)`;
`self.current_mode = modes[next_idx]`;
the log f-string evaluates `self.current_mode.name`;
display and NeoPixel updates (relay-irrelevant, omitted);
finally `self.relays.all_off()`.  The first line raises, so none of the
rest — in particular the mode update and `all_off` — ever executes. -/
def cycle_mode (a : App) : Except PyErr App := do
  let modes ← list_TestMode
  let current_idx ← py_index modes a.current_mode
  let next_idx := (current_idx + 1) % modes.length
  let a1 : App := { a with current_mode := modes.getD next_idx 0 }
  let _ ← mode_name a1.current_mode
  pure { a1 with relays := a1.relays.all_off }

/-- The actions `_trigger_test` can dispatch to. -/
inductive TestAction where
  | run_trailer_test_sequence
  | read_all_channels (detailed : Bool)
deriving DecidableEq

/-- The mode dispatch of `_trigger_test` (code.py:160-164): the trailer
test sequence in `TRAILER_TESTER`, a detailed `_read_all_channels` in
`VEHICLE_TESTER`, and nothing in any other mode (there is no branch for
`PASS_THROUGH`). -/
def trigger_test_dispatch (current_mode : ℕ) : List TestAction :=
  if current_mode = TestMode.TRAILER_TESTER then [TestAction.run_trailer_test_sequence]
  else if current_mode = TestMode.VEHICLE_TESTER then [TestAction.read_all_channels true]
  else []

/-- `TrailerTester._trigger_test` (code.py:156-164): the first statement
is `self.logger.info(f"Test triggered in mode: {self.current_mode.name\x7d")`,
whose f-string evaluates `self.current_mode.name` on an int and raises
`AttributeError` before the dispatch is reached. -/
def trigger_test (current_mode : ℕ) : Except PyErr (List TestAction) := do
  let _ ← mode_name current_mode
  pure (trigger_test_dispatch current_mode)

/-- `LONG_PRESS_MS` (code.py:38), in milliseconds. -/
def LONG_PRESS_MS : ℚ := 2000

/-- `DEBOUNCE_MS` (code.py:37), in milliseconds. -/
def DEBOUNCE_MS : ℚ := 50

/-- The action-button tracking state of `check_buttons`
(code.py:99-104): `test_button_last` (raw level, `true` = released under
pull-up wiring), `_test_press_start`, `_long_press_triggered`. -/
structure ButtonState where
  test_button_last : Bool
  test_press_start : ℚ
  long_press_triggered : Bool
deriving DecidableEq

/-- The discrete events the tracker emits: a `Pressed` event is the call
to `_trigger_test()` (short press), a `LongPressed` event the call to
`_trigger_full_test()`. -/
inductive ButtonEvent where
  | Pressed
  | LongPressed
deriving DecidableEq

/-- The action-button half of `check_buttons` (code.py:123-140) for one
poll at monotonic time `current_time` (ms) observing raw level
`test_current`: on a release→press transition record the press start and
clear the long-press latch; while held, emit `LongPressed` once when the
hold time exceeds `LONG_PRESS_MS`; on release emit `Pressed` when the
hold stayed below `LONG_PRESS_MS` and no `LongPressed` fired; then store
the raw level in `test_button_last`. -/
def check_test_button (s : ButtonState) (test_current : Bool) (current_time : ℚ) :
    ButtonState × Option ButtonEvent :=
  if test_current = false ∧ s.test_button_last = true then
    ({ test_button_last := test_current, test_press_start := current_time,
       long_press_triggered := false }, none)
  else if test_current = false ∧ s.test_button_last = false then
    let hold_time := current_time - s.test_press_start
    if LONG_PRESS_MS < hold_time ∧ s.long_press_triggered = false then
      ({ s with test_button_last := test_current, long_press_triggered := true },
       some ButtonEvent.LongPressed)
    else ({ s with test_button_last := test_current }, none)
  else if test_current = true ∧ s.test_button_last = false then
    let hold_time := current_time - s.test_press_start
    if hold_time < LONG_PRESS_MS ∧ s.long_press_triggered = false then
      ({ s with test_button_last := test_current }, some ButtonEvent.Pressed)
    else ({ s with test_button_last := test_current }, none)
  else ({ s with test_button_last := test_current }, none)

/-- Run the tracker over a stream of `(raw_level, time)` samples,
collecting emitted events in order. -/
def run_button (s : ButtonState) : List (Bool × ℚ) → ButtonState × List ButtonEvent
  | [] => (s, [])
  | (lvl, t) :: rest =>
    let step := check_test_button s lvl t
    let tailRun := run_button step.1 rest
    (tailRun.1, step.2.toList ++ tailRun.2)

/-- The sample trace of one complete hold of the action button: a press
observed at `t0`, held samples at the times in `held`, and the release
observed at `t1`. -/
def hold_trace (t0 : ℚ) (held : List ℚ) (t1 : ℚ) : List (Bool × ℚ) :=
  (false, t0) :: (held.map (fun t => (false, t)) ++ [(true, t1)])

/-- Concrete `add_reading` argument run refuting C2: one snapshot whose
analysis produced two `VOLTAGE_DROP` findings (brake and tail both
dropped), followed by nine clean snapshots. -/
def cex_adds : List HistEntry :=
  { timestamp := 0, readings := [(Channel.brake, 7), (Channel.tail, 7)],
    faults := [{ name := FaultName.VOLTAGE_DROP, channel := some Channel.brake, confidence := 85 },
               { name := FaultName.VOLTAGE_DROP, channel := some Channel.tail, confidence := 85 }] }
    :: List.replicate 9 { timestamp := 0, readings := [], faults := [] }

/-- The history state after the `cex_adds` run on a fresh default-size
history. -/
def cex_history : DiagnosticHistory :=
  run_add_readings (history_init 100) cex_adds

/-! ## Theorems -/

/-- C10: for every history state, fault name, and any two threshold
values, `detect_intermittent_fault` returns the same result — the
`threshold` parameter (source default 0.3) has no influence; the
hard-coded bounds 0.1 and 0.9 alone decide the answer. -/
theorem c10_threshold_has_no_influence :
    ∀ (h : DiagnosticHistory) (fault_name : FaultName) (t1 t2 : ℚ),
      detect_intermittent_fault h fault_name t1
        = detect_intermittent_fault h fault_name t2 := by
  intro h n t1 t2
  rfl

/-- C1 (failing evaluation): a `Pressed` event on the mode button runs
`_cycle_mode`, whose first statement `modes = list(TestMode)` raises
`TypeError` from every application state, so the mode is never advanced
and `relays.all_off()` is never commanded. -/
theorem c1_mode_button_cycle_raises :
    ∀ a : App, cycle_mode a = Except.error PyErr.typeError := by
  intro a
  rfl

/-- C3 (counterexample): with the current mode `PASS_THROUGH`, a short
press on the action button (`_trigger_test`) raises `AttributeError` at
the logging line and performs no channel read — the claim says it
performs one immediate detailed read-and-display cycle. -/
theorem c3_cex_passthrough_short_press :
    trigger_test TestMode.PASS_THROUGH = Except.error PyErr.attributeError := by
  rfl

/-- C3 (amended): as written, a short press on the action button raises
`AttributeError` in every mode (the log f-string evaluates `.name` on the
int mode) and performs no read; the dispatch that statement guards
selects one detailed `_read_all_channels` in `VEHICLE_TESTER` only, the
trailer test sequence in `TRAILER_TESTER`, and nothing in
`PASS_THROUGH`. -/
theorem c3_short_press_dispatch :
    (∀ m : ℕ, trigger_test m = Except.error PyErr.attributeError)
    ∧ trigger_test_dispatch TestMode.VEHICLE_TESTER = [TestAction.read_all_channels true]
    ∧ trigger_test_dispatch TestMode.TRAILER_TESTER = [TestAction.run_trailer_test_sequence]
    ∧ trigger_test_dispatch TestMode.PASS_THROUGH = [] := by
  refine ⟨fun m => rfl, rfl, rfl, rfl⟩

/-- C9: `set_channel` with any index outside `0 ≤ idx < len(relays)`
takes the logged-error path and returns with every relay (GPIO value and
tracked state alike) unchanged — it never falls back to channel 0. -/
theorem c9_invalid_relay_index_rejected :
    ∀ (m : RelayManager) (channel_idx : ℤ) (state : Bool),
      ¬(0 ≤ channel_idx ∧ channel_idx < (m.relays.length : ℤ)) →
      m.set_channel channel_idx state = (m, false) := by
  intro m i s h
  simp [RelayManager.set_channel, h]

/-- Witness for C9 at the concrete out-of-range indices 6 and -1 on the
freshly initialized six-relay manager. -/
theorem c9_invalid_relay_index_witness :
    relay_manager_init.set_channel 6 true = (relay_manager_init, false)
    ∧ relay_manager_init.set_channel (-1) true = (relay_manager_init, false) :=
  ⟨c9_invalid_relay_index_rejected relay_manager_init 6 true (by decide),
   c9_invalid_relay_index_rejected relay_manager_init (-1) true (by decide)⟩

/-- C4 (evaluation): starting from the all-off initial relay state, every
prefix of the relay operations of the trailer test sequence (every possible
exception/abort exit point) leaves at most one relay energized, and the
completed sequence leaves all relays off; but the prefix cut during the
`time.sleep(2.0)` of the first step — two operations in — exits with relay 1
(tail) still energized, because `_run_trailer_test_sequence` has no
`try/finally` or abort handler forcing `all_off()`. -/
theorem c4_sequence_at_most_one_relay :
    (∀ n : ℕ,
      ((run_ops relay_manager_init (trailer_seq_ops.take n)).relays.count true) ≤ 1)
    ∧ run_ops relay_manager_init trailer_seq_ops = relay_manager_init
    ∧ (run_ops relay_manager_init (trailer_seq_ops.take 2)).relays
        = [false, true, false, false, false, false] := by
  refine ⟨?_, by decide, by decide⟩
  have hfin : ∀ k : Fin 25,
      ((run_ops relay_manager_init (trailer_seq_ops.take k.1)).relays.count true) ≤ 1 := by
    decide
  intro n
  rcases Nat.lt_or_ge n 25 with h | h
  · exact hfin ⟨n, h⟩
  · have hlen : trailer_seq_ops.length = 24 := by decide
    have htake : trailer_seq_ops.take n = trailer_seq_ops := by
      apply List.take_of_length_le
      omega
    rw [htake]
    decide

namespace DiagnosticsEngine

/-- Inserting by confidence permutes to consing. -/
theorem insert_by_confidence_perm (f : FaultPattern) (l : List FaultPattern) :
    (insert_by_confidence f l).Perm (f :: l) := by
  induction l with
  | nil => simp [insert_by_confidence]
  | cons g rest ih =>
    unfold insert_by_confidence
    by_cases hc : g.confidence ≤ f.confidence
    · simp [hc]
    · simp only [hc, if_false]
      exact (ih.cons g).trans (List.Perm.swap f g rest)

/-- The stable descending sort is a permutation of its input. -/
theorem sort_by_confidence_perm (l : List FaultPattern) :
    (sort_by_confidence l).Perm l := by
  induction l with
  | nil => rfl
  | cons f rest ih =>
    exact (insert_by_confidence_perm f (sort_by_confidence rest)).trans (ih.cons f)

/-- Inserting preserves descending-by-confidence pairwise sortedness. -/
theorem insert_by_confidence_sorted (f : FaultPattern) {l : List FaultPattern}
    (hl : l.Pairwise (fun a b => b.confidence ≤ a.confidence)) :
    (insert_by_confidence f l).Pairwise (fun a b => b.confidence ≤ a.confidence) := by
  induction l with
  | nil => simp [insert_by_confidence]
  | cons g rest ih =>
    rw [List.pairwise_cons] at hl
    obtain ⟨hg, hrest⟩ := hl
    unfold insert_by_confidence
    by_cases hc : g.confidence ≤ f.confidence
    · simp only [hc, if_true]
      refine List.Pairwise.cons ?_ (List.Pairwise.cons hg hrest)
      intro b hb
      rcases List.mem_cons.mp hb with hbg | hbr
      · exact hbg ▸ hc
      · exact le_trans (hg b hbr) hc
    · simp only [hc, if_false]
      refine List.Pairwise.cons ?_ (ih hrest)
      intro b hb
      rcases List.mem_cons.mp ((insert_by_confidence_perm f rest).mem_iff.mp hb) with hbf | hbr
      · exact hbf ▸ le_of_lt (lt_of_not_ge hc)
      · exact hg b hbr

/-- The sort output is pairwise descending in confidence. -/
theorem sort_by_confidence_sorted (l : List FaultPattern) :
    (sort_by_confidence l).Pairwise (fun a b => b.confidence ≤ a.confidence) := by
  induction l with
  | nil => simp [sort_by_confidence]
  | cons f rest ih => exact insert_by_confidence_sorted f ih

/-- Filtering an equal-confidence class through the stable insertion:
the inserted element lands in front of the class when it belongs to it
and the class is otherwise untouched (the elements skipped over all have
strictly larger confidence). -/
theorem filter_insert_by_confidence (f : FaultPattern) (l : List FaultPattern) (k : ℕ) :
    (insert_by_confidence f l).filter (fun g => g.confidence = k)
      = if f.confidence = k
        then f :: l.filter (fun g => g.confidence = k)
        else l.filter (fun g => g.confidence = k) := by
  induction l with
  | nil =>
    by_cases hf : f.confidence = k <;> simp [insert_by_confidence, List.filter, hf]
  | cons g rest ih =>
    unfold insert_by_confidence
    by_cases hc : g.confidence ≤ f.confidence
    · rw [if_pos hc]
      by_cases hf : f.confidence = k <;> simp [List.filter_cons, hf]
    · rw [if_neg hc]
      rw [List.filter_cons, List.filter_cons]
      by_cases hf : f.confidence = k
      · have hg : ¬(g.confidence = k) := by omega
        simp [hf, hg, ih]
      · by_cases hg : g.confidence = k <;> simp [hf, hg, ih]

/-- Stability of the modelled sort: each equal-confidence class keeps
its encounter order. -/
theorem filter_sort_by_confidence (l : List FaultPattern) (k : ℕ) :
    (sort_by_confidence l).filter (fun g => g.confidence = k)
      = l.filter (fun g => g.confidence = k) := by
  induction l with
  | nil => rfl
  | cons f rest ih =>
    rw [sort_by_confidence, filter_insert_by_confidence, List.filter_cons]
    by_cases hf : f.confidence = k <;> simp [hf, ih]

end DiagnosticsEngine

/-- C8: the list returned by every `analyze_readings` call is sorted in
descending order of confidence, and for every confidence value the
findings carrying it appear exactly in the order in which they were
encountered while building the unsorted `faults` list (stable sort). -/
theorem c8_analyze_sorted_stable :
    ∀ (readings : Snapshot) (mode : Option ℕ),
      (DiagnosticsEngine.analyze_readings readings mode).Pairwise
        (fun a b => b.confidence ≤ a.confidence)
      ∧ ∀ k : ℕ,
        (DiagnosticsEngine.analyze_readings readings mode).filter
            (fun f => f.confidence = k)
          = (DiagnosticsEngine.detect_faults readings).filter
              (fun f => f.confidence = k) := by
  intro readings mode
  exact ⟨DiagnosticsEngine.sort_by_confidence_sorted _,
    fun k => DiagnosticsEngine.filter_sort_by_confidence _ k⟩

namespace DiagnosticsEngine

/-- Every finding produced by the per-channel check is attributed to the
channel it was produced for. -/
theorem per_channel_check_channel {c : Channel} {v : ℚ} {f : FaultPattern}
    (h : per_channel_check c v = some f) : f.channel = some c := by
  unfold per_channel_check at h
  split at h
  · split at h
    · cases h; rfl
    · split at h
      · cases h; rfl
      · cases h
  · cases h

/-- The cross-wiring finding is never attributed to a channel. -/
theorem filter_channel_cross_wiring (readings : Snapshot) (c : Channel) :
    (detect_cross_wiring readings).toList.filter (fun f => f.channel = some c) = [] := by
  simp only [detect_cross_wiring]
  split
  · split <;> simp
  · simp

/-- The ground-fault finding is never attributed to a channel. -/
theorem filter_channel_ground_fault (readings : Snapshot) (c : Channel) :
    (detect_ground_fault readings).toList.filter (fun f => f.channel = some c) = [] := by
  simp only [detect_ground_fault]
  split
  · split <;> simp
  · simp

/-- A snapshot containing no entry for a channel contributes no finding
attributed to it. -/
theorem filter_channel_filterMap_of_not_mem (c : Channel) :
    ∀ (l : Snapshot), (∀ p ∈ l, p.1 ≠ c) →
      (l.filterMap (fun p => per_channel_check p.1 p.2)).filter
          (fun f => f.channel = some c) = [] := by
  intro l
  induction l with
  | nil => intro _; rfl
  | cons p rest ih =>
    intro hne
    rcases hp : per_channel_check p.1 p.2 with _ | f
    · rw [List.filterMap_cons, hp]
      exact ih (fun q hq => hne q (List.mem_cons_of_mem p hq))
    · rw [List.filterMap_cons, hp, List.filter_cons]
      have hf : f.channel = some p.1 := per_channel_check_channel hp
      have : ¬(f.channel = some c) := by
        rw [hf]
        intro hcon
        exact hne p (List.mem_cons_self p rest) (Option.some.inj hcon)
      rw [if_neg (by simp [this])]
      exact ih (fun q hq => hne q (List.mem_cons_of_mem p hq))

/-- With unique dict keys, the per-channel pass contributes for channel
`c` exactly the finding classified from its own voltage. -/
theorem filter_channel_filterMap (c : Channel) (v : ℚ) :
    ∀ (l : Snapshot), (l.map Prod.fst).Nodup → (c, v) ∈ l →
      (l.filterMap (fun p => per_channel_check p.1 p.2)).filter
          (fun f => f.channel = some c)
        = (per_channel_check c v).toList := by
  intro l
  induction l with
  | nil => intro _ hmem; cases hmem
  | cons p rest ih =>
    intro hnd hmem
    rw [List.map_cons, List.nodup_cons] at hnd
    obtain ⟨hhead, hrest⟩ := hnd
    rcases List.mem_cons.mp hmem with heq | htail
    · subst heq
      have hnotin : ∀ q ∈ rest, q.1 ≠ c := by
        intro q hq hcon
        have hqmem : q.1 ∈ rest.map Prod.fst := List.mem_map_of_mem Prod.fst hq
        rw [hcon] at hqmem
        exact hhead hqmem
      rcases hp : per_channel_check c v with _ | f
      · rw [List.filterMap_cons]
        simp only [hp]
        rw [filter_channel_filterMap_of_not_mem c rest hnotin]
        rfl
      · rw [List.filterMap_cons]
        simp only [hp, List.filter_cons]
        have hf : f.channel = some c := per_channel_check_channel hp
        rw [if_pos (by simp [hf])]
        rw [filter_channel_filterMap_of_not_mem c rest hnotin]
        rfl
    · have hne : p.1 ≠ c := by
        intro hcon
        have hcmem : (c, v).1 ∈ rest.map Prod.fst := List.mem_map_of_mem Prod.fst htail
        rw [hcon] at hhead
        exact hhead hcmem
      rcases hp : per_channel_check p.1 p.2 with _ | f
      · rw [List.filterMap_cons, hp]
        exact ih hrest htail
      · rw [List.filterMap_cons, hp, List.filter_cons]
        have hf : f.channel = some p.1 := per_channel_check_channel hp
        have : ¬(f.channel = some c) := by
          rw [hf]
          intro hcon
          exact hne (Option.some.inj hcon)
        rw [if_neg (by simp [this])]
        exact ih hrest htail

/-- The findings of `analyze_readings` attributed to channel `c` are, up
to the confidence sort (a permutation), exactly the per-channel
classification of the own voltage of `c`. -/
theorem analyze_filter_channel (readings : Snapshot) (mode : Option ℕ)
    (hnd : (readings.map Prod.fst).Nodup) (c : Channel) (v : ℚ)
    (hmem : (c, v) ∈ readings) :
    ((analyze_readings readings mode).filter (fun f => f.channel = some c)).Perm
      (per_channel_check c v).toList := by
  have hperm := (sort_by_confidence_perm (detect_faults readings)).filter
    (fun f => decide (f.channel = some c))
  have hdetect : (detect_faults readings).filter (fun f => f.channel = some c)
      = (per_channel_check c v).toList := by
    unfold detect_faults
    rw [List.filter_append, List.filter_append,
      filter_channel_cross_wiring, filter_channel_ground_fault,
      filter_channel_filterMap c v readings hnd hmem]
    simp
  rw [hdetect] at hperm
  exact hperm

/-- Classification in the voltage-drop band. -/
theorem per_channel_check_voltage_drop {v : ℚ} (c : Channel) (h1 : 3 < v) (h2 : v < 9) :
    per_channel_check c v
      = some { name := FaultName.VOLTAGE_DROP, channel := some c, confidence := 85 } := by
  simp [per_channel_check, is_voltage_drop, is_weak_signal, ACTIVE_THRESHOLD,
    WEAK_THRESHOLD, NORMAL_MIN, diagnose_voltage_drop, h1, h2]

/-- Classification in the weak-signal band. -/
theorem per_channel_check_weak_signal {v : ℚ} (c : Channel) (h1 : 9 ≤ v) (h2 : v < 11) :
    per_channel_check c v
      = some { name := FaultName.WEAK_SIGNAL, channel := some c, confidence := 70 } := by
  have h3 : (3:ℚ) < v := by linarith
  have h4 : ¬(v < 9) := by linarith
  simp [per_channel_check, is_voltage_drop, is_weak_signal, ACTIVE_THRESHOLD,
    WEAK_THRESHOLD, NORMAL_MIN, diagnose_weak_signal, h1, h2, h3, h4]

/-- No classification at or below the active floor. -/
theorem per_channel_check_inactive {v : ℚ} (c : Channel) (h : v ≤ 3) :
    per_channel_check c v = none := by
  have h3 : ¬((3:ℚ) < v) := by linarith
  simp [per_channel_check, ACTIVE_THRESHOLD, h3]

end DiagnosticsEngine

/-- C5: `analyze_readings` flags a channel only above the 3.0 V active
floor — with unique snapshot keys, the findings attributed to a channel
are exactly one `VOLTAGE_DROP` at confidence 85 for voltage in (3, 9),
exactly one `WEAK_SIGNAL` at confidence 70 for voltage in [9, 11), and
none at all for voltage ≤ 3; in particular `analyze({brake: 7.0})`
returns exactly one finding, `VOLTAGE_DROP` at confidence 85. -/
theorem c5_active_floor_classification :
    (∀ (readings : Snapshot), (readings.map Prod.fst).Nodup →
      ∀ (c : Channel) (v : ℚ), (c, v) ∈ readings →
        ((3 < v ∧ v < 9) →
          (DiagnosticsEngine.analyze_readings readings none).filter
              (fun f => f.channel = some c)
            = [{ name := FaultName.VOLTAGE_DROP, channel := some c, confidence := 85 }])
        ∧ ((9 ≤ v ∧ v < 11) →
          (DiagnosticsEngine.analyze_readings readings none).filter
              (fun f => f.channel = some c)
            = [{ name := FaultName.WEAK_SIGNAL, channel := some c, confidence := 70 }])
        ∧ (v ≤ 3 →
          (DiagnosticsEngine.analyze_readings readings none).filter
              (fun f => f.channel = some c) = []))
    ∧ DiagnosticsEngine.analyze_readings [(Channel.brake, 7)] none
        = [{ name := FaultName.VOLTAGE_DROP, channel := some Channel.brake, confidence := 85 }] := by
  constructor
  · intro readings hnd c v hmem
    have hperm := DiagnosticsEngine.analyze_filter_channel readings none hnd c v hmem
    refine ⟨?_, ?_, ?_⟩
    · intro h
      rw [DiagnosticsEngine.per_channel_check_voltage_drop c h.1 h.2] at hperm
      exact List.perm_singleton.mp (by simpa using hperm)
    · intro h
      rw [DiagnosticsEngine.per_channel_check_weak_signal c h.1 h.2] at hperm
      exact List.perm_singleton.mp (by simpa using hperm)
    · intro h
      rw [DiagnosticsEngine.per_channel_check_inactive c h] at hperm
      exact List.Perm.eq_nil (by simpa using hperm)
  · norm_num [DiagnosticsEngine.analyze_readings, DiagnosticsEngine.detect_faults,
      DiagnosticsEngine.detect_cross_wiring, DiagnosticsEngine.detect_ground_fault,
      readings_get, DiagnosticsEngine.per_channel_check, DiagnosticsEngine.is_voltage_drop,
      DiagnosticsEngine.is_weak_signal, DiagnosticsEngine.ACTIVE_THRESHOLD,
      DiagnosticsEngine.WEAK_THRESHOLD, DiagnosticsEngine.NORMAL_MIN,
      DiagnosticsEngine.diagnose_voltage_drop, DiagnosticsEngine.sort_by_confidence,
      DiagnosticsEngine.insert_by_confidence, List.filterMap_cons]

/-- Witness for C5 at a concrete weak-signal input: the tail channel at
9.5 V is flagged exactly once, as `WEAK_SIGNAL` at confidence 70. -/
theorem c5_active_floor_witness :
    (DiagnosticsEngine.analyze_readings [(Channel.tail, 19/2)] none).filter
        (fun f => f.channel = some Channel.tail)
      = [{ name := FaultName.WEAK_SIGNAL, channel := some Channel.tail, confidence := 70 }] :=
  (c5_active_floor_classification.1 [(Channel.tail, 19/2)] (by simp) Channel.tail (19/2)
    (by simp)).2.1 (by norm_num)

/-- Unfolding one tracker step over a cons trace. -/
theorem run_button_cons (s : ButtonState) (lvl : Bool) (t : ℚ) (rest : List (Bool × ℚ)) :
    run_button s ((lvl, t) :: rest)
      = ((run_button (check_test_button s lvl t).1 rest).1,
         (check_test_button s lvl t).2.toList
           ++ (run_button (check_test_button s lvl t).1 rest).2) := rfl

/-- Tracker runs compose over appended traces. -/
theorem run_button_append (s : ButtonState) (l1 l2 : List (Bool × ℚ)) :
    run_button s (l1 ++ l2)
      = ((run_button (run_button s l1).1 l2).1,
         (run_button s l1).2 ++ (run_button (run_button s l1).1 l2).2) := by
  induction l1 generalizing s with
  | nil => simp [run_button]
  | cons p rest ih =>
    obtain ⟨lvl, t⟩ := p
    rw [List.cons_append, run_button_cons, run_button_cons, ih]
    simp

/-- Once the long press has been signalled for a hold, further held
samples emit nothing and leave the tracker state unchanged. -/
theorem held_run_already_triggered (start : ℚ) (held : List ℚ) :
    run_button ⟨false, start, true⟩ (held.map (fun t => (false, t)))
      = (⟨false, start, true⟩, []) := by
  induction held with
  | nil => rfl
  | cons t rest ih =>
    rw [List.map_cons, run_button_cons]
    have hstep : check_test_button ⟨false, start, true⟩ false t
        = (⟨false, start, true⟩, none) := by
      simp [check_test_button]
    rw [hstep]
    simp [ih]

/-- Held samples that never exceed the threshold emit nothing and leave
the latch clear. -/
theorem held_run_below_threshold (start : ℚ) (held : List ℚ)
    (h : ∀ t ∈ held, ¬(LONG_PRESS_MS < t - start)) :
    run_button ⟨false, start, false⟩ (held.map (fun t => (false, t)))
      = (⟨false, start, false⟩, []) := by
  induction held with
  | nil => rfl
  | cons t rest ih =>
    rw [List.map_cons, run_button_cons]
    have hstep : check_test_button ⟨false, start, false⟩ false t
        = (⟨false, start, false⟩, none) := by
      simp [check_test_button, h t (List.mem_cons_self t rest)]
    rw [hstep]
    simp [ih (fun u hu => h u (List.mem_cons_of_mem t hu))]

/-- As soon as some held sample exceeds the threshold, the hold emits
exactly one `LongPressed` and latches. -/
theorem held_run_exceeds_threshold (start : ℚ) (held : List ℚ)
    (h : ∃ t ∈ held, LONG_PRESS_MS < t - start) :
    run_button ⟨false, start, false⟩ (held.map (fun t => (false, t)))
      = (⟨false, start, true⟩, [ButtonEvent.LongPressed]) := by
  induction held with
  | nil => obtain ⟨t, ht, _⟩ := h; cases ht
  | cons t rest ih =>
    rw [List.map_cons, run_button_cons]
    by_cases hfire : LONG_PRESS_MS < t - start
    · have hstep : check_test_button ⟨false, start, false⟩ false t
          = (⟨false, start, true⟩, some ButtonEvent.LongPressed) := by
        simp [check_test_button, hfire]
      rw [hstep]
      simp [held_run_already_triggered]
    · have hstep : check_test_button ⟨false, start, false⟩ false t
          = (⟨false, start, false⟩, none) := by
        simp [check_test_button, hfire]
      rw [hstep]
      have hrest : ∃ u ∈ rest, LONG_PRESS_MS < u - start := by
        obtain ⟨u, hu, hlt⟩ := h
        rcases List.mem_cons.mp hu with rfl | hu'
        · exact absurd hlt hfire
        · exact ⟨u, hu', hlt⟩
      simp [ih hrest]

/-- The release step: emits `Pressed` exactly when the hold stayed below
the threshold and no long press was signalled. -/
theorem release_step (start t1 : ℚ) (b : Bool) :
    check_test_button ⟨false, start, b⟩ true t1
      = (⟨true, start, b⟩,
         if t1 - start < LONG_PRESS_MS ∧ b = false then some ButtonEvent.Pressed
         else none) := by
  by_cases h : t1 - start < LONG_PRESS_MS ∧ b = false <;> simp [check_test_button, h]

/-- C6: for one complete hold of the action button (press observed at
`t0`, held samples at the times in `held`, release observed at `t1`,
starting from any state in which the button was last seen released): if
some held sample observes a hold time exceeding 2000 ms, the hold emits
exactly one `LongPressed` and nothing else (in particular the release
emits nothing); if no held sample exceeds 2000 ms and the release comes
below 2000 ms, the hold emits exactly one `Pressed` and nothing else. -/
theorem c6_action_button_events :
    ∀ (s : ButtonState) (t0 t1 : ℚ) (held : List ℚ), s.test_button_last = true →
      ((∃ t ∈ held, t - t0 > 2000) →
        (run_button s (hold_trace t0 held t1)).2 = [ButtonEvent.LongPressed])
      ∧ ((∀ t ∈ held, ¬(t - t0 > 2000)) → t1 - t0 < 2000 →
        (run_button s (hold_trace t0 held t1)).2 = [ButtonEvent.Pressed]) := by
  intro s t0 t1 held hlast
  have hpress : check_test_button s false t0 = (⟨false, t0, false⟩, none) := by
    simp [check_test_button, hlast]
  constructor
  · intro hex
    have hex' : ∃ t ∈ held, LONG_PRESS_MS < t - t0 := by
      simpa [LONG_PRESS_MS, gt_iff_lt] using hex
    rw [hold_trace, run_button_cons, hpress]
    rw [run_button_append, held_run_exceeds_threshold t0 held hex']
    have hrel := release_step t0 t1 true
    simp only [run_button_cons]
    rw [hrel]
    simp [run_button]
  · intro hall hrelease
    have hall' : ∀ t ∈ held, ¬(LONG_PRESS_MS < t - t0) := by
      simpa [LONG_PRESS_MS, gt_iff_lt] using hall
    rw [hold_trace, run_button_cons, hpress]
    rw [run_button_append, held_run_below_threshold t0 held hall']
    have hrel := release_step t0 t1 false
    simp only [run_button_cons]
    rw [hrel]
    have hcond : t1 - t0 < LONG_PRESS_MS ∧ false = false := ⟨by simpa [LONG_PRESS_MS] using hrelease, rfl⟩
    simp [run_button, hcond]

/-- Witness for C6: a hold observed at 2100 ms into a press begun at 0
and released at 2500 ms emits exactly one `LongPressed`; a hold observed
at 500 ms and released at 1000 ms emits exactly one `Pressed`. -/
theorem c6_action_button_witness :
    (run_button ⟨true, 0, false⟩ (hold_trace 0 [2100] 2500)).2 = [ButtonEvent.LongPressed]
    ∧ (run_button ⟨true, 0, false⟩ (hold_trace 0 [500] 1000)).2 = [ButtonEvent.Pressed] :=
  ⟨(c6_action_button_events ⟨true, 0, false⟩ 0 2500 [2100] rfl).1
      ⟨2100, by simp, by norm_num⟩,
   (c6_action_button_events ⟨true, 0, false⟩ 0 1000 [500] rfl).2
      (by intro t ht; rw [List.mem_singleton] at ht; subst ht; norm_num) (by norm_num)⟩

/-- `run_add_readings` never changes the capacity. -/
theorem run_add_readings_max (adds : List HistEntry) :
    ∀ h : DiagnosticHistory, (run_add_readings h adds).max_history = h.max_history := by
  induction adds with
  | nil => intro h; rfl
  | cons e rest ih => intro h; rw [run_add_readings, ih]; rfl

/-- Closed form of the stored history after a run of `add_reading`
calls, starting from any state within capacity: the concatenation with
everything before the retained window dropped. -/
theorem run_add_readings_history (adds : List HistEntry) :
    ∀ h : DiagnosticHistory, h.history.length ≤ h.max_history →
      (run_add_readings h adds).history
        = (h.history ++ adds).drop (h.history.length + adds.length - h.max_history) := by
  induction adds with
  | nil =>
    intro h hle
    simp [run_add_readings, Nat.sub_eq_zero_of_le hle]
  | cons e rest ih =>
    intro h hle
    rw [run_add_readings]
    by_cases hcap : h.max_history < h.history.length + 1
    · have hlen : h.history.length = h.max_history := by omega
      have h1 : (add_reading h e.timestamp e.readings e.faults).history
          = (h.history ++ [e]).tail := by
        show (if h.max_history < (h.history ++ [e]).length
            then (h.history ++ [e]).tail else h.history ++ [e]) = (h.history ++ [e]).tail
        rw [if_pos (by simpa using hcap)]
      have hlen1 : (add_reading h e.timestamp e.readings e.faults).history.length
          = h.max_history := by
        rw [h1, List.length_tail]
        simp [hlen]
      have hmax1 : (add_reading h e.timestamp e.readings e.faults).max_history
          = h.max_history := rfl
      rw [ih _ (by rw [hlen1, hmax1]), h1, hmax1]
      rw [← List.drop_one, ← List.drop_append_of_le_length (by simp), List.drop_drop]
      have hx : (h.history ++ [e]) ++ rest = h.history ++ e :: rest := by
        rw [List.append_assoc, List.singleton_append]
      rw [hx]
      congr 1
      simp only [List.length_drop, List.length_append, List.length_cons, List.length_nil]
      omega
    · have h1 : (add_reading h e.timestamp e.readings e.faults).history
          = h.history ++ [e] := by
        show (if h.max_history < (h.history ++ [e]).length
            then (h.history ++ [e]).tail else h.history ++ [e]) = h.history ++ [e]
        rw [if_neg (by simpa using hcap)]
      have hlen1 : (add_reading h e.timestamp e.readings e.faults).history.length
          = h.history.length + 1 := by
        rw [h1]; simp
      have hmax1 : (add_reading h e.timestamp e.readings e.faults).max_history
          = h.max_history := rfl
      rw [ih _ (by rw [hlen1, hmax1]; omega), h1, hmax1]
      have hx : (h.history ++ [e]) ++ rest = h.history ++ e :: rest := by
        rw [List.append_assoc, List.singleton_append]
      rw [hx]
      congr 1
      simp only [List.length_append, List.length_cons, List.length_nil]
      omega

/-- From a fresh history the stored entries are exactly the adds with
everything before the last `cap` dropped. -/
theorem run_from_empty_history (cap : ℕ) (adds : List HistEntry) :
    (run_add_readings (history_init cap) adds).history
      = adds.drop (adds.length - cap) := by
  rw [run_add_readings_history adds (history_init cap) (by simp [history_init])]
  simp [history_init]

/-- From a fresh history the stored length is `min N cap`. -/
theorem run_from_empty_length (cap : ℕ) (adds : List HistEntry) :
    (run_add_readings (history_init cap) adds).history.length
      = min adds.length cap := by
  rw [run_from_empty_history, List.length_drop]
  omega

/-- The per-name counter fold adds the number of findings of that name. -/
theorem count_faults_get (faults : List FaultPattern) :
    ∀ (counts : FaultName → ℕ) (n : FaultName),
      count_faults counts faults n
        = counts n + (faults.filter (fun f => f.name = n)).length := by
  induction faults with
  | nil => intro counts n; simp [count_faults]
  | cons f rest ih =>
    intro counts n
    rw [count_faults, ih, List.filter_cons]
    by_cases hn : f.name = n
    · subst hn
      simp
      omega
    · simp [hn, Ne.symm hn]

/-- The cumulative fault counter after a run equals the starting counter
plus the total number of findings of that name over all adds — eviction
never subtracts. -/
theorem run_add_readings_counts (adds : List HistEntry) :
    ∀ (h : DiagnosticHistory) (n : FaultName),
      (run_add_readings h adds).fault_counts n
        = h.fault_counts n + total_occurrences n adds := by
  induction adds with
  | nil => intro h n; simp [run_add_readings, total_occurrences]
  | cons e rest ih =>
    intro h n
    rw [run_add_readings, ih]
    have hadd : (add_reading h e.timestamp e.readings e.faults).fault_counts n
        = h.fault_counts n + (e.faults.filter (fun f => f.name = n)).length :=
      count_faults_get e.faults h.fault_counts n
    rw [hadd]
    have htot : total_occurrences n (e :: rest)
        = (e.faults.filter (fun f => f.name = n)).length + total_occurrences n rest := by
      simp [total_occurrences]
    rw [htot]
    omega

/-- C7: starting from a fresh history of any capacity, after any run of
`add_reading` calls the stored entries are exactly the most recent
`min N cap` additions in insertion order (FIFO eviction of the single
oldest entry per overflowing insertion), so the length is `min N cap`
and the capacity is never exceeded. -/
theorem c7_history_fifo_capacity :
    ∀ (cap : ℕ) (adds : List HistEntry),
      (run_add_readings (history_init cap) adds).history
          = adds.drop (adds.length - cap)
      ∧ (run_add_readings (history_init cap) adds).history.length
          = min adds.length cap :=
  fun cap adds => ⟨run_from_empty_history cap adds, run_from_empty_length cap adds⟩

/-- C2 (amended, closed form): after any run of `add_reading` calls on a
fresh history, `detect_intermittent_fault` returns false while fewer
than 10 entries are stored, and otherwise returns true iff the
*cumulative* count of individual findings of the kind over all add calls
(counting several findings inside one entry separately, and never
reduced by eviction) divided by the number of currently stored entries
lies strictly between 0.1 and 0.9. -/
theorem c2_amended_intermittent_closed_form :
    ∀ (cap : ℕ) (adds : List HistEntry) (kind : FaultName) (threshold : ℚ),
      detect_intermittent_fault (run_add_readings (history_init cap) adds) kind threshold
        = if min adds.length cap < 10 then false
          else decide
            ((1:ℚ)/10 < (total_occurrences kind adds : ℚ) / (min adds.length cap : ℚ)
              ∧ (total_occurrences kind adds : ℚ) / (min adds.length cap : ℚ) < 9/10) := by
  intro cap adds kind threshold
  rw [detect_intermittent_fault]
  rw [run_from_empty_length, run_add_readings_counts]
  simp [history_init]

/-- C2 (counterexample): run ten `add_reading` calls on a fresh history,
the first with two `VOLTAGE_DROP` findings (brake and tail both dropped
in the same snapshot), the other nine clean.  Exactly 1 of the 10 stored
entries contains a `VOLTAGE_DROP` finding, so the claimed
entries-containing fraction is 1/10 = 0.1, not strictly between 0.1 and
0.9, and the claim says `is_intermittent` is false — but the source
counts both findings in `fault_counts` (2/10 = 0.2) and returns true. -/
theorem c2_cex_finding_count_vs_entry_fraction :
    detect_intermittent_fault cex_history FaultName.VOLTAGE_DROP (3/10) = true
    ∧ is_intermittent_per_spec cex_history FaultName.VOLTAGE_DROP = false
    ∧ cex_history.history.length = 10
    ∧ entries_containing cex_history FaultName.VOLTAGE_DROP = 1 := by
  have hadds_len : cex_adds.length = 10 := by simp [cex_adds]
  have hhist : cex_history.history = cex_adds := by
    rw [cex_history, run_from_empty_history, hadds_len]
    simp
  have hlen : cex_history.history.length = 10 := by rw [hhist, hadds_len]
  have htot : total_occurrences FaultName.VOLTAGE_DROP cex_adds = 2 := by decide
  have hcnt : cex_history.fault_counts FaultName.VOLTAGE_DROP = 2 := by
    rw [cex_history, run_add_readings_counts, htot]
    rfl
  have hent : entries_containing cex_history FaultName.VOLTAGE_DROP = 1 := by
    rw [entries_containing, hhist]
    decide
  refine ⟨?_, ?_, hlen, hent⟩
  · rw [detect_intermittent_fault, hlen, hcnt]
    norm_num
  · rw [is_intermittent_per_spec, hlen, hent]
    norm_num
